import Mathlib

/-
Verification of the parsing / aggregation / selection logic of
process_dashboard.py (Real_Time_Risk_Monitoring).

The script reads per-process JSON-lines log files, classifies each entry as
success or failure from its exit code, and feeds cumulative counters to a
dashboard.  The embedding below models:
  - JSON values as produced by Python's json.loads (JValue);
  - Python semantics of the operators the script applies to a parsed value:
    the membership test `key in value`, subscription `value[key]`, and the
    comparison `value == 0` (pyContains, pyLookup, pyEq0);
  - the per-line loop body of parse_log_files (processLine), where an
    uncaught TypeError is modelled as Except.error;
  - parse_log_files over a modelled directory (a list of filename/contents
    pairs standing for the log directory);
  - load_app_config over the outcome of toml.load;
  - the CLI-vs-config selection logic and the available_logs /
    sanitized_selection / ignored_processes computation, including Python's
    str.replace of every occurrence of a pattern;
  - the cumulative success_count / failure_count columns and the main
    dashboard branch (select prompt / waiting / chart).
-/

namespace ProcessDashboard

/-- A JSON value as returned by Python's json.loads.  Python distinguishes
ints from floats when parsing JSON numbers; floats are modelled exactly as
rationals (every binary64 float is a rational, and the only float operation
the script performs is an exact equality test against 0).  An object is the
parsed dict's key/value pairs; a dict has pairwise distinct keys. -/
inductive JValue where
  | jnull
  | jbool (b : Bool)
  | jint (n : Int)
  | jfloat (q : ℚ)
  | jstr (s : String)
  | jarr (elems : List JValue)
  | jobj (fields : List (String × JValue))

/-- One line of a log file, after line.strip() and json.loads (lines 48-61
of process_dashboard.py): blank after stripping, raising JSONDecodeError,
or successfully parsed to a JSON value. -/
inductive LogLine where
  | empty
  | malformed
  | value (v : JValue)

/-- The record dict appended at lines 55-59 of process_dashboard.py.
The timestamp is stored as parsed (any JSON value), status is the string
computed at line 54, process the requested name. -/
structure LogRecord where
  timestamp : JValue
  status : String
  process : String

/-- Does p == c hold at the head and recursively, i.e. is p an initial
segment of the second list?  (Python substring search helper.) -/
def leadsWith : List Char → List Char → Bool
  | [], _ => true
  | _ :: _, [] => false
  | p :: ps, c :: cs => p == c && leadsWith ps cs

/-- Python's `x == 0` on a json.loads value: the int 0, the float 0.0 and
the bool False compare equal to 0; every other JSON value does not. -/
def pyEq0 : JValue → Bool
  | .jint n => n == 0
  | .jfloat q => q == 0
  | .jbool b => !b
  | _ => false

/-- Python's `key == x` where key is a str: true exactly for an equal str. -/
def pyEqStr (key : String) : JValue → Bool
  | .jstr t => key == t
  | _ => false

/-- Python's membership test `key in value` for a str key: key lookup on a
dict, substring test on a str, element-equality search on a list, and a
TypeError (modelled as none) on int, float, bool and None. -/
def pyContains (key : String) : JValue → Option Bool
  | .jobj kvs => some (kvs.any (fun kv => kv.1 == key))
  | .jstr s => some ((s.data.tails).any (fun t => leadsWith key.data t))
  | .jarr xs => some (xs.any (pyEqStr key))
  | _ => none

/-- Python's subscription `value[key]` for a str key: dict lookup when the
value is a dict and the key is present; none models a raised error
(TypeError on non-dicts, KeyError on an absent key). -/
def pyLookup (key : String) : JValue → Option JValue
  | .jobj kvs => List.lookup key kvs
  | _ => none

/-- The body of the per-line loop of parse_log_files (lines 48-61):
skip blank lines, skip lines raising JSONDecodeError, then evaluate
`"exit_code" in log_entry and "timestamp" in log_entry` with Python's
short-circuit order, and on success build the record, classifying
log_entry["exit_code"] == 0 as success and anything else as failure
(line 54).  Except.error models an exception other than JSONDecodeError
(a TypeError from `in` or from subscription) propagating out uncaught. -/
def processLine (name : String) : LogLine → Except Unit (Option LogRecord)
  | .empty => .ok none
  | .malformed => .ok none
  | .value v =>
    match pyContains "exit_code" v with
    | none => .error ()
    | some false => .ok none
    | some true =>
      match pyContains "timestamp" v with
      | none => .error ()
      | some false => .ok none
      | some true =>
        match pyLookup "exit_code" v with
        | none => .error ()
        | some ec =>
          match pyLookup "timestamp" v with
          | none => .error ()
          | some ts =>
            .ok (some ⟨ts, if pyEq0 ec then "success" else "failure", name⟩)

/-- The per-file loop of parse_log_files over the parsed lines of one file:
records in line order; an uncaught exception aborts the whole call. -/
def parseLines (name : String) : List LogLine → Except Unit (List LogRecord)
  | [] => .ok []
  | l :: ls =>
    match processLine name l with
    | .error e => .error e
    | .ok none => parseLines name ls
    | .ok (some r) => Except.map (fun rs => r :: rs) (parseLines name ls)

/-- The contents of the log directory: filenames paired with the parsed
lines of each file, in directory order.  List.lookup f models
os.path.exists and open for filename f. -/
abbrev FileSystem := List (String × List LogLine)

/-- parse_log_files (lines 39-64): for each requested name, the file
name ++ ".json" in the log directory; a missing file contributes nothing
(lines 44-45); records are concatenated across names in request order.
The returned list stands for the DataFrame of all_records (an empty list
for the empty DataFrame of line 63). -/
def parse_log_files (process_names : List String) (fs : FileSystem) :
    Except Unit (List LogRecord) :=
  match process_names with
  | [] => .ok []
  | name :: rest =>
    match List.lookup (name ++ ".json") fs with
    | none => parse_log_files rest fs
    | some lines =>
      match parseLines name lines with
      | .error e => .error e
      | .ok rs => Except.map (fun more => rs ++ more) (parse_log_files rest fs)

/-- The outcome of toml.load plus the two key lookups of lines 28-32:
output_path_logs is config["output_path"]["logs"] when both keys exist
(none models the KeyError), process_dashboard_names is the value of
config.get("process_dashboard", {}).get("names", ...) when the section and
key exist. -/
structure TomlConfig where
  output_path_logs : Option String
  process_dashboard_names : Option (List String)

/-- What load_app_config returns, together with whether st.error was
called (line 35). -/
structure ConfigResult where
  log_dir : Option String
  default_processes : List String
  error_reported : Bool

/-- load_app_config (lines 24-36).  The argument is the outcome of reading
and parsing the config file: none when toml.load (or the file read) raises.
A missing output_path.logs key raises KeyError, caught by the blanket
except which reports the error and returns (None, []).  A missing
process_dashboard section or names key just defaults to []. -/
def load_app_config (c : Option TomlConfig) : ConfigResult :=
  match c with
  | none => ⟨none, [], true⟩
  | some cfg =>
    match cfg.output_path_logs with
    | none => ⟨none, [], true⟩
    | some dir => ⟨some dir, cfg.process_dashboard_names.getD [], false⟩

/-- Line 72: sys.argv[1:] if len(sys.argv) > 1 else None. -/
def cli_processes (argv : List String) : Option (List String) :=
  if argv.length > 1 then some argv.tail else none

/-- Lines 74-79: `if cli_processes:` is Python truthiness — None and the
empty list select the config default, a non-empty list is used as is. -/
def initial_selection (argv : List String) (config_processes : List String) :
    List String :=
  match cli_processes argv with
  | some ps => if ps.isEmpty then config_processes else ps
  | none => config_processes

/-- Python's f.endswith(".json") via reversed character lists. -/
def strEndsWith (s suffix : String) : Bool :=
  leadsWith suffix.data.reverse s.data.reverse

/-- The character list of the literal ".json". -/
def dotJson : List Char := ['.', 'j', 's', 'o', 'n']

/-- Python's f.replace(".json", "") scans left to right and removes every
non-overlapping occurrence of ".json".  The Nat argument is fuel, at least
the length of the list (each step consumes at least one character). -/
def dropJsonAux : Nat → List Char → List Char
  | _, [] => []
  | 0, s => s
  | fuel + 1, c :: rest =>
    if leadsWith dotJson (c :: rest) then dropJsonAux fuel (List.drop 4 rest)
    else c :: dropJsonAux fuel rest

/-- Python's f.replace(".json", "") on a string. -/
def strStripJson (s : String) : String :=
  ⟨dropJsonAux s.data.length s.data⟩

/-- Line 83: the ".json"-suffixed entries of os.listdir(log_dir), with
every occurrence of ".json" removed by str.replace. -/
def available_logs (fs : FileSystem) : List String :=
  ((fs.map Prod.fst).filter (fun f => strEndsWith f ".json")).map strStripJson

/-- Line 84: the initial selection filtered by Python list membership in
available_logs. -/
def sanitized_selection (initial : List String) (fs : FileSystem) :
    List String :=
  initial.filter (fun p => (available_logs fs).contains p)

/-- Line 86: the initial selection filtered to names not in available_logs. -/
def ignored_processes (initial : List String) (fs : FileSystem) :
    List String :=
  initial.filter (fun p => !((available_logs fs).contains p))

/-- Lines 82-98 on first render: with no log directory the selection is
empty (line 98); otherwise the multiselect starts from its default,
sanitized_selection of the initial selection. -/
def selected_processes_initial (res : ConfigResult) (argv : List String)
    (fs : FileSystem) : List String :=
  match res.log_dir with
  | none => []
  | some _ => sanitized_selection (initial_selection argv res.default_processes) fs

/-- Running sum: element i of the result is acc plus the sum of the first
i+1 inputs (pandas cumsum over 0/1 indicator columns, lines 123-124). -/
def cumsumFrom (acc : Nat) : List Nat → List Nat
  | [] => []
  | x :: xs => (acc + x) :: cumsumFrom (acc + x) xs

/-- The 0/1 indicator (df['status'] == s) for one row. -/
def statusFlag (s : String) (r : LogRecord) : Nat :=
  if r.status == s then 1 else 0

/-- Line 123: df['success_count'] = (df['status'] == 'success').cumsum(). -/
def success_count (rows : List LogRecord) : List Nat :=
  cumsumFrom 0 (rows.map (statusFlag "success"))

/-- Line 124: df['failure_count'] = (df['status'] == 'failure').cumsum(). -/
def failure_count (rows : List LogRecord) : List Nat :=
  cumsumFrom 0 (rows.map (statusFlag "failure"))

/-- What the main dashboard area shows (lines 115-158): the select prompt
of line 116, the waiting message of line 158, or the KPI/chart block of
lines 120-156 (carrying the aggregated records it is built from). -/
inductive DashboardView where
  | selectPrompt
  | waiting (procs : List String)
  | chart (records : List LogRecord)

/-- Lines 115-158: empty selection shows the select prompt; otherwise the
logs are aggregated, an empty DataFrame shows the waiting message, and a
non-empty one the chart.  Except.error propagates an uncaught exception
from parse_log_files. -/
def render_main (selected : List String) (fs : FileSystem) :
    Except Unit DashboardView :=
  if selected.isEmpty then .ok .selectPrompt
  else
    match parse_log_files selected fs with
    | .error e => .error e
    | .ok rs => .ok (if rs.isEmpty then .waiting selected else .chart rs)

/-- A line is an object line or one of the two skipped shapes (blank or
malformed); it excludes valid-JSON lines whose top-level value is not an
object. -/
def wellFormedLine : LogLine → Bool
  | .value (.jobj _) => true
  | .value _ => false
  | _ => true

/-- The record the line loop emits for a line, none when the line is
skipped: exactly the object lines holding both required keys produce a
record. -/
def recordOf (name : String) : LogLine → Option LogRecord
  | .value (.jobj kvs) =>
    match List.lookup "exit_code" kvs, List.lookup "timestamp" kvs with
    | some ec, some ts =>
      some ⟨ts, if pyEq0 ec then "success" else "failure", name⟩
    | _, _ => none
  | _ => none

/-- The three-line log file of the spec's worked example: a blank line, an
object without the required fields, and a successful run entry. -/
def alphaLines : List LogLine :=
  [.empty,
   .value (.jobj [("not", .jstr "relevant")]),
   .value (.jobj [("timestamp", .jstr "2024-01-01T00:00:00Z"),
                  ("exit_code", .jint 0)])]

/-- A log directory holding only the alpha example file. -/
def fs_alpha : FileSystem := [("alpha.json", alphaLines)]

/-- A log directory whose beta file holds one valid-JSON line whose
top-level value is the number 5. -/
def fs_scalar_line : FileSystem := [("beta.json", [.value (.jint 5)])]

/-- A log directory holding one file named a.json.json (and no a.json). -/
def fs_c6 : FileSystem := [("a.json.json", [])]

/-- A log directory holding one file named present.json. -/
def fs_c7 : FileSystem := [("present.json", [])]

/-- Two concrete records, one success then one failure. -/
def c4_rows : List LogRecord :=
  [⟨.jstr "t1", "success", "p"⟩, ⟨.jstr "t2", "failure", "p"⟩]

/-! Helper lemmas shared by several claims. -/

/-- A successful dict lookup means the key-membership scan succeeds. -/
theorem any_key_of_lookup {β : Type} (k : String) (kvs : List (String × β)) (v : β)
    (h : List.lookup k kvs = some v) :
    kvs.any (fun kv => kv.1 == k) = true := by
  induction kvs with
  | nil => simp [List.lookup] at h
  | cons hd tl ih =>
    obtain ⟨k', v'⟩ := hd
    rw [List.lookup_cons] at h
    cases hbk : (k == k') with
    | true =>
      simp only [List.any_cons]
      have : k' = k := (beq_iff_eq.mp hbk).symm
      simp [this]
    | false =>
      rw [hbk] at h
      simp only [List.any_cons, ih h, Bool.or_true]

/-- Evaluation of the line-loop body on a parsed object that has both
required keys: a record is always produced, with the timestamp value and
the Python-equality-with-0 classification of the exit code. -/
theorem processLine_jobj (name : String) (kvs : List (String × JValue)) (ec ts : JValue)
    (hec : List.lookup "exit_code" kvs = some ec)
    (hts : List.lookup "timestamp" kvs = some ts) :
    processLine name (.value (.jobj kvs))
      = .ok (some ⟨ts, if pyEq0 ec then "success" else "failure", name⟩) := by
  have h1 : pyContains "exit_code" (.jobj kvs) = some true := by
    simp [pyContains, any_key_of_lookup _ _ _ hec]
  have h2 : pyContains "timestamp" (.jobj kvs) = some true := by
    simp [pyContains, any_key_of_lookup _ _ _ hts]
  simp [processLine, h1, h2, pyLookup, hec, hts]

/-- Every record the line loop emits has status success or failure. -/
theorem processLine_status (name : String) (l : LogLine) (r : LogRecord)
    (h : processLine name l = .ok (some r)) :
    r.status = "success" ∨ r.status = "failure" := by
  cases l with
  | empty => simp [processLine] at h
  | malformed => simp [processLine] at h
  | value v =>
    rw [processLine] at h
    cases h1 : pyContains "exit_code" v with
    | none => rw [h1] at h; exact absurd h (by simp)
    | some b1 =>
      rw [h1] at h
      cases b1 with
      | false => exact absurd h (by simp)
      | true =>
        cases h2 : pyContains "timestamp" v with
        | none => rw [h2] at h; exact absurd h (by simp)
        | some b2 =>
          rw [h2] at h
          cases b2 with
          | false => exact absurd h (by simp)
          | true =>
            cases h3 : pyLookup "exit_code" v with
            | none => rw [h3] at h; exact absurd h (by simp)
            | some ec =>
              rw [h3] at h
              cases h4 : pyLookup "timestamp" v with
              | none => rw [h4] at h; exact absurd h (by simp)
              | some ts =>
                rw [h4] at h
                simp only [Except.ok.injEq, Option.some.injEq] at h
                subst h
                by_cases hz : pyEq0 ec = true
                · left; simp [hz]
                · right; simp [hz]

/-- Every record in the output of the per-file loop has status success or
failure. -/
theorem parseLines_status (name : String) (lines : List LogLine)
    (rs : List LogRecord) (h : parseLines name lines = .ok rs) :
    ∀ r ∈ rs, r.status = "success" ∨ r.status = "failure" := by
  induction lines generalizing rs with
  | nil =>
    simp only [parseLines, Except.ok.injEq] at h
    subst h; intro r hr; cases hr
  | cons l ls ih =>
    rw [parseLines] at h
    split at h
    · exact absurd h (by simp)
    · exact ih rs h
    · rename_i r0 hl
      cases hrec : parseLines name ls with
      | error e => rw [hrec] at h; exact absurd h (by simp [Except.map])
      | ok rs0 =>
        rw [hrec] at h
        simp only [Except.map, Except.ok.injEq] at h
        subst h
        intro r hr
        rcases List.mem_cons.mp hr with h0 | h0
        · subst h0; exact processLine_status name l r hl
        · exact ih rs0 hrec r h0

/-- Every record aggregated by parse_log_files has status success or
failure. -/
theorem parse_log_files_status (names : List String) (fs : FileSystem)
    (rs : List LogRecord) (h : parse_log_files names fs = .ok rs) :
    ∀ r ∈ rs, r.status = "success" ∨ r.status = "failure" := by
  induction names generalizing rs with
  | nil =>
    simp only [parse_log_files, Except.ok.injEq] at h
    subst h; intro r hr; cases hr
  | cons n ns ih =>
    rw [parse_log_files] at h
    split at h
    · exact ih rs h
    · split at h
      · exact absurd h (by simp)
      · rename_i x1 lines hf x2 rs1 hp
        cases hrec : parse_log_files ns fs with
        | error e => rw [hrec] at h; exact absurd h (by simp [Except.map])
        | ok rs2 =>
          rw [hrec] at h
          simp only [Except.map, Except.ok.injEq] at h
          subst h
          intro r hr
          rcases List.mem_append.mp hr with h0 | h0
          · exact parseLines_status n lines rs1 hp r h0
          · exact ih rs2 hrec r h0

/-! Claim theorems. -/

/-- C1: for every log line that is parsed into a record, the record's
status is determined solely by the line's exit_code field — an integer
exit code 0 yields success and any nonzero integer yields failure. -/
theorem c1_status_from_exit_code (name : String) (v : JValue) (n : Int)
    (r : LogRecord)
    (hec : pyLookup "exit_code" v = some (.jint n))
    (hr : processLine name (.value v) = .ok (some r)) :
    r.status = if n = 0 then "success" else "failure" := by
  cases v with
  | jobj kvs =>
    cases h4 : pyLookup "timestamp" (JValue.jobj kvs) with
    | none =>
      rw [processLine] at hr
      cases h1 : pyContains "exit_code" (JValue.jobj kvs) with
      | none => rw [h1] at hr; exact absurd hr (by simp)
      | some b1 =>
        rw [h1] at hr
        cases b1 with
        | false => exact absurd hr (by simp)
        | true =>
          cases h2 : pyContains "timestamp" (JValue.jobj kvs) with
          | none => rw [h2] at hr; exact absurd hr (by simp)
          | some b2 =>
            rw [h2] at hr
            cases b2 with
            | false => exact absurd hr (by simp)
            | true => rw [hec, h4] at hr; exact absurd hr (by simp)
    | some ts =>
      have := processLine_jobj name kvs (.jint n) ts hec h4
      rw [this] at hr
      simp only [Except.ok.injEq, Option.some.injEq] at hr
      subst hr
      simp only [pyEq0]
      by_cases hz : n = 0
      · simp [hz]
      · simp [hz]
  | jnull => simp [pyLookup] at hec
  | jbool b => simp [pyLookup] at hec
  | jint m => simp [pyLookup] at hec
  | jfloat q => simp [pyLookup] at hec
  | jstr s => simp [pyLookup] at hec
  | jarr xs => simp [pyLookup] at hec

/-- C1 witness: a concrete object line with exit_code 0 yields a record
whose status matches the classification of 0. -/
theorem c1_witness :
    (⟨.jstr "t", "success", "p"⟩ : LogRecord).status
      = if (0 : Int) = 0 then "success" else "failure" :=
  c1_status_from_exit_code "p"
    (.jobj [("timestamp", .jstr "t"), ("exit_code", .jint 0)]) 0
    ⟨.jstr "t", "success", "p"⟩ rfl rfl

/-- C10: parse_log_files never type-checks exit_code — every parsed object
with both required keys yields a record whatever the field types, and the
classification uses Python equality with 0: the int 0, the float 0.0 and
False count as success, while nonzero ints, nonzero floats, strings and
None count as failure. -/
theorem c10_exit_code_untyped :
    (∀ (name : String) (kvs : List (String × JValue)) (ec ts : JValue),
        List.lookup "exit_code" kvs = some ec →
        List.lookup "timestamp" kvs = some ts →
        processLine name (.value (.jobj kvs))
          = .ok (some ⟨ts, if pyEq0 ec then "success" else "failure", name⟩))
    ∧ pyEq0 (.jint 0) = true
    ∧ pyEq0 (.jfloat 0) = true
    ∧ pyEq0 (.jbool false) = true
    ∧ (∀ n : Int, n ≠ 0 → pyEq0 (.jint n) = false)
    ∧ (∀ q : ℚ, q ≠ 0 → pyEq0 (.jfloat q) = false)
    ∧ (∀ s : String, pyEq0 (.jstr s) = false)
    ∧ pyEq0 .jnull = false := by
  refine ⟨fun name kvs ec ts hec hts => processLine_jobj name kvs ec ts hec hts,
    rfl, by simp [pyEq0], rfl, ?_, ?_, fun s => rfl, rfl⟩
  · intro n hn; simp [pyEq0, hn]
  · intro q hq; simp [pyEq0, hq]

/-- C10 witness: a concrete object whose exit_code is the boolean false is
recorded as success. -/
theorem c10_witness :
    processLine "p"
        (.value (.jobj [("timestamp", .jstr "t"), ("exit_code", .jbool false)]))
      = .ok (some ⟨.jstr "t",
          if pyEq0 (.jbool false) then "success" else "failure", "p"⟩) :=
  c10_exit_code_untyped.1 "p"
    [("timestamp", .jstr "t"), ("exit_code", .jbool false)]
    (.jbool false) (.jstr "t") rfl rfl

/-- A key is present as a dict key exactly when the membership scan says
so. -/
theorem lookup_isSome_eq_any {β : Type} (k : String) (kvs : List (String × β)) :
    (List.lookup k kvs).isSome = kvs.any (fun kv => kv.1 == k) := by
  induction kvs with
  | nil => rfl
  | cons hd tl ih =>
    obtain ⟨k', v'⟩ := hd
    rw [List.lookup_cons]
    cases hbk : (k == k') with
    | true =>
      have : k' = k := (beq_iff_eq.mp hbk).symm
      simp [this]
    | false =>
      have : ¬ k' = k := fun he => by simp [he] at hbk
      simp [List.any_cons, this, ih]

/-- On a line whose top-level value is an object (or a skipped blank or
malformed line), the line-loop body never raises and emits exactly the
record recordOf describes. -/
theorem processLine_eq_recordOf (name : String) (l : LogLine)
    (h : wellFormedLine l = true) :
    processLine name l = .ok (recordOf name l) := by
  cases l with
  | empty => rfl
  | malformed => rfl
  | value v =>
    cases v with
    | jobj kvs =>
      cases hec : List.lookup "exit_code" kvs with
      | none =>
        have hany : kvs.any (fun kv => kv.1 == "exit_code") = false := by
          rw [← lookup_isSome_eq_any, hec]; rfl
        simp [processLine, pyContains, hany, recordOf, hec]
      | some ec =>
        cases hts : List.lookup "timestamp" kvs with
        | none =>
          have hany1 : kvs.any (fun kv => kv.1 == "exit_code") = true := by
            rw [← lookup_isSome_eq_any, hec]; rfl
          have hany2 : kvs.any (fun kv => kv.1 == "timestamp") = false := by
            rw [← lookup_isSome_eq_any, hts]; rfl
          simp [processLine, pyContains, hany1, hany2, recordOf, hec, hts]
        | some ts =>
          rw [processLine_jobj name kvs ec ts hec hts]
          simp [recordOf, hec, hts]
    | jnull => simp [wellFormedLine] at h
    | jbool b => simp [wellFormedLine] at h
    | jint n => simp [wellFormedLine] at h
    | jfloat q => simp [wellFormedLine] at h
    | jstr s => simp [wellFormedLine] at h
    | jarr xs => simp [wellFormedLine] at h

/-- C2 (amended): when every valid-JSON line's top-level value is an
object, the per-file loop raises nothing and yields exactly one record per
object line holding both required fields, skipping every other line; and
the concrete alpha example file yields exactly the one success record. -/
theorem c2_line_tolerance (name : String) (lines : List LogLine)
    (h : ∀ l ∈ lines, wellFormedLine l = true) :
    parseLines name lines = .ok (lines.filterMap (recordOf name))
    ∧ parse_log_files ["alpha"] fs_alpha
        = .ok [⟨.jstr "2024-01-01T00:00:00Z", "success", "alpha"⟩] := by
  refine ⟨?_, rfl⟩
  induction lines with
  | nil => rfl
  | cons l ls ih =>
    rw [parseLines, processLine_eq_recordOf name l (h l (List.mem_cons_self l ls)),
      ih (fun l' hl' => h l' (List.mem_cons_of_mem l hl'))]
    cases hr : recordOf name l with
    | none => simp [List.filterMap_cons, hr]
    | some r => simp [List.filterMap_cons, hr, Except.map]

/-- C2 witness: the amended statement evaluated on the alpha example
lines. -/
theorem c2_witness :
    parseLines "alpha" alphaLines = .ok (alphaLines.filterMap (recordOf "alpha"))
    ∧ parse_log_files ["alpha"] fs_alpha
        = .ok [⟨.jstr "2024-01-01T00:00:00Z", "success", "alpha"⟩] :=
  c2_line_tolerance "alpha" alphaLines (by decide)

/-- C2 counterexample: a valid-JSON line that is not an object — here the
bare number 5, which is neither empty, nor malformed JSON, nor an object
with a field missing — is not silently skipped: the membership test raises
an uncaught TypeError and parse_log_files aborts instead of returning
records. -/
theorem c2_counterexample :
    parse_log_files ["beta"] fs_scalar_line = .error () := rfl

/-- Running the two indicator sums together: position i of the pair of
running counters adds up to the records seen so far plus the starting
accumulators. -/
theorem counters_aux (rows : List LogRecord)
    (h : ∀ r ∈ rows, r.status = "success" ∨ r.status = "failure") :
    ∀ (a b i : Nat), i < rows.length →
      (cumsumFrom a (rows.map (statusFlag "success"))).getD i 0
        + (cumsumFrom b (rows.map (statusFlag "failure"))).getD i 0
        = a + b + i + 1 := by
  induction rows with
  | nil => intro a b i hi; simp at hi
  | cons r rows ih =>
    intro a b i hi
    have hr := h r (List.mem_cons_self r rows)
    have hx : statusFlag "success" r + statusFlag "failure" r = 1 := by
      rcases hr with h0 | h0 <;> simp [statusFlag, h0]
    cases i with
    | zero =>
      simp only [List.map_cons, cumsumFrom, List.getD_cons_zero]
      omega
    | succ i =>
      simp only [List.map_cons, cumsumFrom, List.getD_cons_succ]
      have := ih (fun r' hr' => h r' (List.mem_cons_of_mem r hr'))
        (a + statusFlag "success" r) (b + statusFlag "failure" r) i
        (by simpa using hi)
      omega

/-- C4: at every 1-indexed position i of the series, the running success
and failure counters sum to i, the number of records processed so far,
both counters starting from zero; and every record parse_log_files feeds
the series builder has status success or failure. -/
theorem c4_counter_invariant :
    (∀ (rows : List LogRecord),
        (∀ r ∈ rows, r.status = "success" ∨ r.status = "failure") →
        ∀ i : Nat, 1 ≤ i → i ≤ rows.length →
          (success_count rows).getD (i - 1) 0
            + (failure_count rows).getD (i - 1) 0 = i)
    ∧ (∀ (names : List String) (fs : FileSystem) (rs : List LogRecord),
        parse_log_files names fs = .ok rs →
        ∀ r ∈ rs, r.status = "success" ∨ r.status = "failure") := by
  constructor
  · intro rows h i h1 h2
    have h3 := counters_aux rows h 0 0 (i - 1) (by omega)
    simp only [success_count, failure_count]
    omega
  · exact parse_log_files_status

/-- C4 witness: the invariant evaluated at position 2 of a concrete
two-record series. -/
theorem c4_witness :
    (success_count c4_rows).getD (2 - 1) 0
      + (failure_count c4_rows).getD (2 - 1) 0 = 2 :=
  c4_counter_invariant.1 c4_rows (by decide) 2 (by decide) (by decide)

/-- C5: command-line names, when present, are the initial selection as
given, and the config defaults are ignored entirely; with no command-line
names the config defaults are the initial selection. -/
theorem c5_cli_precedence (argv config_processes : List String) :
    (∀ prog p ps, argv = prog :: p :: ps →
        initial_selection argv config_processes = p :: ps)
    ∧ (argv.length ≤ 1 →
        initial_selection argv config_processes = config_processes) := by
  constructor
  · rintro prog p ps rfl
    have hc : cli_processes (prog :: p :: ps) = some (p :: ps) := by
      rw [cli_processes, if_pos (by simp)]
      rfl
    simp [initial_selection, hc]
  · intro h
    have hc : cli_processes argv = none := by
      rw [cli_processes, if_neg (by omega)]
    simp [initial_selection, hc]

/-- C5 witness: with CLI names svc1 svc2 and config default svc3 the
selection is svc1 svc2; with no CLI names it is svc3. -/
theorem c5_witness :
    initial_selection ["dashboard.py", "svc1", "svc2"] ["svc3"]
      = ["svc1", "svc2"]
    ∧ initial_selection ["dashboard.py"] ["svc3"] = ["svc3"] :=
  ⟨(c5_cli_precedence ["dashboard.py", "svc1", "svc2"] ["svc3"]).1
      "dashboard.py" "svc1" ["svc2"] rfl,
   (c5_cli_precedence ["dashboard.py"] ["svc3"]).2 (by decide)⟩

/-- C7: a requested name whose file name.json is absent contributes zero
records and raises nothing — aggregation over the remaining names is
unchanged. -/
theorem c7_missing_file (ns1 ns2 : List String) (n : String) (fs : FileSystem)
    (h : List.lookup (n ++ ".json") fs = none) :
    parse_log_files (ns1 ++ n :: ns2) fs = parse_log_files (ns1 ++ ns2) fs := by
  induction ns1 with
  | nil =>
    simp only [List.nil_append]
    rw [parse_log_files, h]
  | cons m ms ih =>
    simp only [List.cons_append]
    rw [parse_log_files, parse_log_files]
    simp only [ih]

/-- C7 witness: requesting present and ghost over a directory holding only
present.json equals requesting present alone. -/
theorem c7_witness :
    parse_log_files (["present"] ++ "ghost" :: []) fs_c7
      = parse_log_files (["present"] ++ []) fs_c7 :=
  c7_missing_file ["present"] [] "ghost" fs_c7 rfl

/-- A list is an initial segment of itself followed by anything. -/
theorem leadsWith_self_append (xs zs : List Char) :
    leadsWith xs (xs ++ zs) = true := by
  induction xs with
  | nil => rfl
  | cons c cs ih => simp [leadsWith, ih]

/-- Appending ".json" always yields a string ending in ".json". -/
theorem strEndsWith_append_json (p : String) :
    strEndsWith (p ++ ".json") ".json" = true := by
  rw [strEndsWith, String.data_append, List.reverse_append]
  exact leadsWith_self_append _ _

/-- Membership in available_logs coincides with existence of the
name ++ ".json" file, provided every ".json"-suffixed filename is its
replace-all stem followed by one ".json" and the name survives
replace-all after suffixing. -/
theorem mem_available_iff (fs : FileSystem) (p : String)
    (Hf : ∀ f ∈ fs.map Prod.fst, strEndsWith f ".json" = true →
        strStripJson f ++ ".json" = f)
    (Hp : strStripJson (p ++ ".json") = p) :
    p ∈ available_logs fs ↔ (p ++ ".json") ∈ fs.map Prod.fst := by
  constructor
  · intro hmem
    rcases List.mem_map.mp hmem with ⟨f, hf, hstrip⟩
    rcases List.mem_filter.mp hf with ⟨hfm, hend⟩
    have hsplit := Hf f hfm hend
    rw [hstrip] at hsplit
    rw [hsplit]
    exact hfm
  · intro hmem
    exact List.mem_map.mpr
      ⟨p ++ ".json",
       List.mem_filter.mpr ⟨hmem, strEndsWith_append_json p⟩, Hp⟩

/-- C6 (amended): provided every ".json"-suffixed filename in the log
directory is a stem with a single trailing ".json" occurrence (its
replace-all stem plus ".json") and the requested names survive suffixing
then replace-all (in particular they do not contain ".json" themselves),
the resolver partitions the requested names: selected is the requested
order filtered to names whose name.json file exists, ignored is the
complementary filter, and every requested name with no file lands in
ignored and not in selected. -/
theorem c6_resolver_partition (sel : List String) (fs : FileSystem)
    (Hf : ∀ f ∈ fs.map Prod.fst, strEndsWith f ".json" = true →
        strStripJson f ++ ".json" = f)
    (Hp : ∀ p ∈ sel, strStripJson (p ++ ".json") = p) :
    sanitized_selection sel fs
      = sel.filter (fun p => (fs.map Prod.fst).contains (p ++ ".json"))
    ∧ ignored_processes sel fs
      = sel.filter (fun p => !((fs.map Prod.fst).contains (p ++ ".json")))
    ∧ ∀ p ∈ sel, List.lookup (p ++ ".json") fs = none →
        p ∈ ignored_processes sel fs ∧ p ∉ sanitized_selection sel fs := by
  have hpt : ∀ p ∈ sel,
      ((available_logs fs).contains p)
        = ((fs.map Prod.fst).contains (p ++ ".json")) := by
    intro p hp
    have hiff := mem_available_iff fs p Hf (Hp p hp)
    rw [← Bool.coe_iff_coe]
    simpa [List.elem_iff] using hiff
  refine ⟨?_, ?_, ?_⟩
  · exact List.filter_congr hpt
  · exact List.filter_congr (by intro p hp; rw [hpt p hp])
  · intro p hp hnone
    have hnotmem : (p ++ ".json") ∉ fs.map Prod.fst := by
      intro hmem
      rcases List.mem_map.mp hmem with ⟨⟨f, c⟩, hfc, hfst⟩
      have := List.lookup_eq_none_iff.mp hnone ⟨f, c⟩ hfc
      simp only at hfst
      simp [hfst] at this
    have hav : ¬ p ∈ available_logs fs :=
      fun hmem => hnotmem ((mem_available_iff fs p Hf (Hp p hp)).mp hmem)
    have hcon : (available_logs fs).contains p = false := by
      cases hc : (available_logs fs).contains p with
      | false => rfl
      | true => exact absurd (List.elem_iff.mp hc) hav
    constructor
    · refine List.mem_filter.mpr ⟨hp, ?_⟩
      simp only [hcon]
      rfl
    · intro hmem
      exact hav (by simpa using (List.mem_filter.mp hmem).2)

/-- C6 witness: with files svc1.json and svc2.json on disk and requested
names svc1 and svc3, selected is svc1 and ignored is svc3, matching the
existence filters. -/
theorem c6_witness :
    sanitized_selection ["svc1", "svc3"] [("svc1.json", []), ("svc2.json", [])]
      = ["svc1", "svc3"].filter (fun p =>
          (([("svc1.json", ([] : List LogLine)), ("svc2.json", [])]).map
            Prod.fst).contains (p ++ ".json"))
    ∧ ignored_processes ["svc1", "svc3"]
          [("svc1.json", []), ("svc2.json", [])]
      = ["svc1", "svc3"].filter (fun p =>
          !((([("svc1.json", ([] : List LogLine)), ("svc2.json", [])]).map
            Prod.fst).contains (p ++ ".json")))
    ∧ ∀ p ∈ ["svc1", "svc3"],
        List.lookup (p ++ ".json")
            ([("svc1.json", []), ("svc2.json", [])] : FileSystem) = none →
        p ∈ ignored_processes ["svc1", "svc3"]
              [("svc1.json", []), ("svc2.json", [])]
        ∧ p ∉ sanitized_selection ["svc1", "svc3"]
              [("svc1.json", []), ("svc2.json", [])] :=
  c6_resolver_partition ["svc1", "svc3"] [("svc1.json", []), ("svc2.json", [])]
    (by decide) (by decide)

/-- C6 counterexample: with only the file a.json.json on disk, the
requested name a has no a.json file, yet replace-all turns a.json.json
into a, so a is selected and not ignored — the claimed partition by file
existence fails. -/
theorem c6_counterexample :
    List.lookup ("a" ++ ".json") fs_c6 = none
    ∧ sanitized_selection ["a"] fs_c6 = ["a"]
    ∧ ignored_processes ["a"] fs_c6 = [] :=
  ⟨rfl, rfl, rfl⟩

/-- C8: a config read or parse failure, or a missing required
output_path.logs key, reports the error and yields no log directory with
an empty default list, after which the selection is empty whatever the
command line and the directory contents. -/
theorem c8_config_error (c : Option TomlConfig)
    (h : c = none ∨ ∃ cfg, c = some cfg ∧ cfg.output_path_logs = none) :
    load_app_config c = ⟨none, [], true⟩
    ∧ ∀ (argv : List String) (fs : FileSystem),
        selected_processes_initial (load_app_config c) argv fs = [] := by
  have hl : load_app_config c = ⟨none, [], true⟩ := by
    rcases h with rfl | ⟨cfg, rfl, hk⟩
    · rfl
    · simp [load_app_config, hk]
  exact ⟨hl, fun argv fs => by rw [hl]; rfl⟩

/-- C8 witness: a failed toml.load yields the empty result and an empty
selection. -/
theorem c8_witness :
    load_app_config none = ⟨none, [], true⟩
    ∧ selected_processes_initial (load_app_config none) ["dashboard.py"] []
        = [] :=
  ⟨(c8_config_error none (Or.inl rfl)).1,
   (c8_config_error none (Or.inl rfl)).2 ["dashboard.py"] []⟩

/-- C9: when aggregation yields no records, the empty series has empty
counter columns and the main dashboard shows a neutral informational
state — the select prompt on an empty selection, the waiting message
otherwise — and never an error. -/
theorem c9_empty_aggregate (selected : List String) (fs : FileSystem)
    (h : parse_log_files selected fs = .ok []) :
    render_main selected fs
      = .ok (if selected.isEmpty then .selectPrompt else .waiting selected)
    ∧ success_count [] = [] ∧ failure_count [] = [] := by
  refine ⟨?_, rfl, rfl⟩
  by_cases hs : selected.isEmpty
  · simp [render_main, hs]
  · simp [render_main, hs, h]

/-- C9 witness: one selected process with an empty log directory renders
the waiting state. -/
theorem c9_witness :
    render_main ["svc"] []
      = .ok (if (["svc"] : List String).isEmpty then .selectPrompt
             else .waiting ["svc"])
    ∧ success_count [] = [] ∧ failure_count [] = [] :=
  c9_empty_aggregate ["svc"] [] rfl

end ProcessDashboard
